import Mathlib

/-!
A verification development for the model-comparison scripts of this
repository.  The definitions below shallowly embed the Python code of
`compare-models.py` and `test_embedding.py`:

* strings are Lean `String`s manipulated as `List Char`, and Python's
  substring test (`in`), `str.split`, `str.strip`, `str.lower`,
  `str.startswith` and slicing are modelled by executable Lean functions
  with the same semantics on the inputs that occur here (ASCII text);
* the four statically defined test cases become the `TestCase` structure
  and the `test_cases` list;
* Python's `json.loads` is modelled by a fuel-based recursive-descent
  parser `json_loads` producing a `JVal`, covering the JSON fragment the
  scripts can meet (objects, arrays, strings with the standard escapes,
  numbers, `true`/`false`/`null`, and the Python extensions
  `NaN`/`Infinity`/`-Infinity`, whose numeric value is irrelevant here
  because the scorer never inspects a number's value);
* scores are exact rationals (the Python floats `0`, `0.5`, `1` and the
  comparisons of the recommendation rule are exact at every value the
  scripts produce);
* Python exceptions are modelled with `Except`: `PyErr` distinguishes the
  `ValueError`/`JSONDecodeError` of a failed parse from the `TypeError`
  of `x in parsed` on a non-container, and the bare `except:` of the
  scoring block is an explicit catch.
-/

/-- Whitespace stripped by Python's `str.strip()` (the ASCII part, which
is all the scripts can meet). -/
def pyIsSpace (c : Char) : Bool :=
  c == ' ' || c == '\t' || c == '\n' || c == '\r' || c == '\x0b' || c == '\x0c'

/-- Python `str.strip()`: remove leading and trailing whitespace. -/
def pyStrip (s : List Char) : List Char :=
  ((s.dropWhile pyIsSpace).reverse.dropWhile pyIsSpace).reverse

/-- Python's substring test `needle in hay` on character lists. -/
def hasInfix (needle : List Char) : List Char → Bool
  | [] => needle.isEmpty
  | c :: rest => needle.isPrefixOf (c :: rest) || hasInfix needle rest

/-- Python `hay.split(sep)` for a non-empty separator, fuel-based so the
kernel can evaluate it: split at each leftmost non-overlapping
occurrence of `sep`.  The fuel-exhaustion arm is unreachable whenever
`input.length ≤ fuel` and `sep` is non-empty. -/
def pySplitF (sep : List Char) : Nat → List Char → List (List Char)
  | _, [] => [[]]
  | 0, s => [s]
  | fuel + 1, c :: rest =>
    if !sep.isEmpty && sep.isPrefixOf (c :: rest) then
      [] :: pySplitF sep fuel ((c :: rest).drop sep.length)
    else
      match pySplitF sep fuel rest with
      | [] => [[c]]
      | h :: t => (c :: h) :: t

/-- Python `hay.split(sep)` for a non-empty separator. -/
def pySplit (sep s : List Char) : List (List Char) :=
  pySplitF sep s.length s

/-- Python `needle in hay` on strings. -/
def strIn (needle hay : String) : Bool :=
  hasInfix needle.toList hay.toList

/-- Python `needle.lower() in hay.lower()` (ASCII case folding, which is
what every string in the scripts needs). -/
def strInCI (needle hay : String) : Bool :=
  hasInfix (needle.toList.map Char.toLower) (hay.toList.map Char.toLower)

/-- A test case of `compare-models.py` (lines 16-44): a name, a prompt, and
at most one of the four scoring rules.  The Python dict's key-presence
tests `"check_json" in test` / `"check_code" in test` become the two
`Bool` fields. -/
structure TestCase where
  name : String
  prompt : String
  expected : Option String
  expected_contains : Option String
  check_json : Bool
  check_code : Bool
deriving DecidableEq, Repr

/-- The static `test_cases` list of `compare-models.py` (lines 16-44). -/
def test_cases : List TestCase :=
  [ { name := "Simple Math"
    , prompt := "What is 15 + 27? Reply with just the number."
    , expected := some "42"
    , expected_contains := none
    , check_json := false
    , check_code := false }
  , { name := "Task Decomposition"
    , prompt := "REQUEST: \"Create a simple calculator function\"\n\nIMPORTANT: Return ONLY valid JSON. No explanations, no thinking, no markdown.\n\nOutput format:\n\x7b\"type\":\"tasks\",\"tasks\":[\x7b\"description\":\"[task]\",\"filename\":\"calculator.ts\",\"content\":\"[code]\"\x7d]\x7d"
    , expected := none
    , expected_contains := none
    , check_json := true
    , check_code := false }
  , { name := "Tool Calling Decision"
    , prompt := "You have these tools: file (create/edit files), bash (run commands), web (search web).\nUser request: \"What is the current Bitcoin price?\"\nWhich tool should you use? Reply with just the tool name."
    , expected := none
    , expected_contains := some "web"
    , check_json := false
    , check_code := false }
  , { name := "Code Generation"
    , prompt := "Write a TypeScript fibonacci function. Return only the code, no explanations."
    , expected := none
    , expected_contains := none
    , check_json := false
    , check_code := true } ]

/-- The fence delimiter searched for in reasoning text. -/
def fence : List Char := ['`', '`', '`']

/-- Python `content[4:]` followed by `.strip()` applied when the trimmed
fenced segment starts with `"json"` (`compare-models.py` lines 83-84);
segments starting with any other language tag are left untouched. -/
def stripJsonTag (c : List Char) : List Char :=
  if ['j', 's', 'o', 'n'].isPrefixOf c then pyStrip (c.drop 4) else c

/-- The reasoning-field extraction of `compare-models.py` lines 79-86,
run when the primary content is `None` and a reasoning field is present:
if the reasoning contains a fence, take the text between the first two
fence delimiters, strip it, and strip a leading `"json"` tag; otherwise
use the raw reasoning text.  Returns `none` exactly when the Python code
leaves `content` at `None` (the `len(parts) > 1` guard failing, which in
fact cannot happen once a fence is present). -/
def extractFromReasoning (r : String) : Option String :=
  if hasInfix fence r.toList then
    match pySplit fence r.toList with
    | _ :: p1 :: _ => some (String.mk (stripJsonTag (pyStrip p1)))
    | _ => none
  else
    some r

/-- Lines 74-77 of `compare-models.py`: the primary content is used if it
is not `None`; otherwise, when a reasoning field is present, the answer
is extracted from it. -/
def resolveContent (content : Option String) (reasoning : Option String) :
    Option String :=
  match content, reasoning with
  | none, some r => extractFromReasoning r
  | c, _ => c

/-- A JSON value as produced by Python's `json.loads`.  Numbers carry an
exact rational (the scorer never inspects a number's value, only its
type, so float rounding and the `NaN`/`Infinity` payloads are irrelevant
and modelled by `0`).  Objects keep their members in order; the only
observation made of an object is key membership, which ignores
duplicates exactly as Python's last-wins dict does. -/
inductive JVal where
  | jnull
  | jbool (b : Bool)
  | jnum (q : ℚ)
  | jstr (s : String)
  | jarr (elems : List JVal)
  | jobj (members : List (String × JVal))

/-- The whitespace `json.loads` skips between tokens. -/
def isJsonWs (c : Char) : Bool :=
  c == ' ' || c == '\t' || c == '\n' || c == '\r'

def skipWs (s : List Char) : List Char :=
  s.dropWhile isJsonWs

def hexDigit? (c : Char) : Option Nat :=
  if c.isDigit then some (c.toNat - 48)
  else if 'a' ≤ c ∧ c ≤ 'f' then some (c.toNat - 87)
  else if 'A' ≤ c ∧ c ≤ 'F' then some (c.toNat - 55)
  else none

def digitsToNat (ds : List Char) : Nat :=
  ds.foldl (fun n c => 10 * n + (c.toNat - 48)) 0

/-- The body of a JSON string after the opening quote: standard escapes,
`\uXXXX`, and a ban on raw control characters (`json.loads` strict
mode).  Lone surrogates and surrogate pairs are not combined (no input
of the scripts contains them). -/
def parseStr : Nat → List Char → List Char → Option (String × List Char)
  | 0, _, _ => none
  | fuel + 1, s, acc =>
    match s with
    | [] => none
    | '"' :: rest => some (String.mk acc.reverse, rest)
    | '\\' :: 'u' :: a :: b :: c :: d :: rest =>
      match hexDigit? a, hexDigit? b, hexDigit? c, hexDigit? d with
      | some ha, some hb, some hc, some hd =>
        parseStr fuel rest (Char.ofNat (((ha * 16 + hb) * 16 + hc) * 16 + hd) :: acc)
      | _, _, _, _ => none
    | '\\' :: e :: rest =>
      match e with
      | '"' => parseStr fuel rest ('"' :: acc)
      | '\\' => parseStr fuel rest ('\\' :: acc)
      | '/' => parseStr fuel rest ('/' :: acc)
      | 'b' => parseStr fuel rest ('\x08' :: acc)
      | 'f' => parseStr fuel rest ('\x0c' :: acc)
      | 'n' => parseStr fuel rest ('\n' :: acc)
      | 'r' => parseStr fuel rest ('\r' :: acc)
      | 't' => parseStr fuel rest ('\t' :: acc)
      | _ => none
    | ch :: rest =>
      if ch.toNat < 32 then none else parseStr fuel rest (ch :: acc)

/-- Exponent part of a JSON number. -/
def parseExpPart (m : ℚ) (s : List Char) : Option (ℚ × List Char) :=
  match s with
  | 'e' :: r | 'E' :: r =>
    let (epos, r1) : Bool × List Char :=
      match r with
      | '+' :: r2 => (true, r2)
      | '-' :: r2 => (false, r2)
      | _ => (true, r)
    let es := r1.takeWhile Char.isDigit
    if es.isEmpty then none
    else
      let e := digitsToNat es
      some (if epos then m * (10 : ℚ) ^ e else m / (10 : ℚ) ^ e,
            r1.dropWhile Char.isDigit)
  | _ => some (m, s)

/-- Fraction and exponent parts of a JSON number, given its integer part. -/
def parseNumAux (intPart : ℚ) (s : List Char) : Option (ℚ × List Char) :=
  match s with
  | '.' :: r =>
    let fs := r.takeWhile Char.isDigit
    if fs.isEmpty then none
    else
      parseExpPart (intPart + (digitsToNat fs : ℚ) / (10 : ℚ) ^ fs.length)
        (r.dropWhile Char.isDigit)
  | _ => parseExpPart intPart s

/-- A JSON number: optional minus, `0` or a nonzero-led digit run, then
optional fraction and exponent. -/
def parseNum (s : List Char) : Option (JVal × List Char) :=
  let (neg, s1) : Bool × List Char :=
    match s with
    | '-' :: r => (true, r)
    | _ => (false, s)
  match s1 with
  | '0' :: r =>
    (parseNumAux 0 r).map (fun p => (JVal.jnum (if neg then -p.1 else p.1), p.2))
  | c :: _ =>
    if c.isDigit then
      (parseNumAux (digitsToNat (s1.takeWhile Char.isDigit) : ℚ)
          (s1.dropWhile Char.isDigit)).map
        (fun p => (JVal.jnum (if neg then -p.1 else p.1), p.2))
    else none
  | [] => none

mutual

/-- A JSON value, dispatching on the first (non-whitespace) character.
`NaN`, `Infinity` and `-Infinity` are the Python extensions. -/
def parseVal : Nat → List Char → Option (JVal × List Char)
  | 0, _ => none
  | fuel + 1, s =>
    match s with
    | '"' :: rest =>
      (parseStr (rest.length + 1) rest []).map (fun p => (JVal.jstr p.1, p.2))
    | '\x7b' :: rest => parseObj fuel (skipWs rest)
    | '[' :: rest => parseArr fuel (skipWs rest)
    | 't' :: 'r' :: 'u' :: 'e' :: rest => some (JVal.jbool true, rest)
    | 'f' :: 'a' :: 'l' :: 's' :: 'e' :: rest => some (JVal.jbool false, rest)
    | 'n' :: 'u' :: 'l' :: 'l' :: rest => some (JVal.jnull, rest)
    | 'N' :: 'a' :: 'N' :: rest => some (JVal.jnum 0, rest)
    | 'I' :: 'n' :: 'f' :: 'i' :: 'n' :: 'i' :: 't' :: 'y' :: rest =>
      some (JVal.jnum 0, rest)
    | '-' :: 'I' :: 'n' :: 'f' :: 'i' :: 'n' :: 'i' :: 't' :: 'y' :: rest =>
      some (JVal.jnum 0, rest)
    | _ => parseNum s

/-- An array body, positioned after `[` with whitespace skipped. -/
def parseArr : Nat → List Char → Option (JVal × List Char)
  | 0, _ => none
  | fuel + 1, s =>
    match s with
    | ']' :: rest => some (JVal.jarr [], rest)
    | _ => parseArrItems fuel s []

def parseArrItems : Nat → List Char → List JVal → Option (JVal × List Char)
  | 0, _, _ => none
  | fuel + 1, s, acc =>
    match parseVal fuel (skipWs s) with
    | none => none
    | some (v, r) =>
      match skipWs r with
      | ',' :: r2 => parseArrItems fuel r2 (v :: acc)
      | ']' :: r2 => some (JVal.jarr (v :: acc).reverse, r2)
      | _ => none

/-- An object body, positioned after the opening brace with whitespace
skipped. -/
def parseObj : Nat → List Char → Option (JVal × List Char)
  | 0, _ => none
  | fuel + 1, s =>
    match s with
    | '\x7d' :: rest => some (JVal.jobj [], rest)
    | _ => parseObjItems fuel s []

def parseObjItems : Nat → List Char → List (String × JVal) →
    Option (JVal × List Char)
  | 0, _, _ => none
  | fuel + 1, s, acc =>
    match skipWs s with
    | '"' :: rest =>
      match parseStr (rest.length + 1) rest [] with
      | none => none
      | some (key, r) =>
        match skipWs r with
        | ':' :: r2 =>
          match parseVal fuel (skipWs r2) with
          | none => none
          | some (v, r3) =>
            match skipWs r3 with
            | ',' :: r4 => parseObjItems fuel r4 ((key, v) :: acc)
            | '\x7d' :: r4 => some (JVal.jobj ((key, v) :: acc).reverse, r4)
            | _ => none
        | _ => none
    | _ => none

end

/-- Python `json.loads`: parse one value and require only whitespace to
remain; `none` models the raised `JSONDecodeError`.  The fuel bound
`3 * length + 3` covers three fuel decrements per consumed character,
enough for any input the scripts can meet (Python itself fails on
pathologically deep nesting via its recursion limit). -/
def json_loads (s : String) : Option JVal :=
  let cs := s.toList
  match parseVal (3 * cs.length + 3) (skipWs cs) with
  | some (v, rest) => if (skipWs rest).isEmpty then some v else none
  | none => none

/-- The Python exceptions the scoring block can meet: a failed
`json.loads` (`JSONDecodeError`, a `ValueError`) and `x in parsed` on a
number, boolean or `None` (`TypeError`). -/
inductive PyErr where
  | valueError
  | typeError
deriving DecidableEq, Repr

/-- Python's membership test `needle in v` on a parsed JSON value: key
membership for a dict, element equality for a list, substring for a
string, and a `TypeError` otherwise. -/
def pyInJ (needle : String) : JVal → Except PyErr Bool
  | JVal.jobj kvs => Except.ok (kvs.any (fun kv => kv.1 == needle))
  | JVal.jarr xs =>
    Except.ok (xs.any (fun x =>
      match x with
      | JVal.jstr s => s == needle
      | _ => false))
  | JVal.jstr s => Except.ok (strIn needle s)
  | _ => Except.error PyErr.typeError

/-- The body of the `try:` at lines 97-100 of `compare-models.py`:
`parsed = json.loads(content)`, then
`if "type" in parsed and "tasks" in parsed: score = 1`
(with Python's short-circuit `and`); the starting score is `0`. -/
def jsonTry (c : String) : Except PyErr ℚ :=
  match json_loads c with
  | none => Except.error PyErr.valueError
  | some v =>
    match pyInJ "type" v with
    | Except.error e => Except.error e
    | Except.ok b1 =>
      if b1 then
        match pyInJ "tasks" v with
        | Except.error e => Except.error e
        | Except.ok b2 => Except.ok (if b2 then 1 else 0)
      else
        Except.ok 0

/-- The `check_json` branch with its bare `except: score = 0`. -/
def jsonScore (c : String) : ℚ :=
  match jsonTry c with
  | Except.ok q => q
  | Except.error _ => 0

/-- The `check_code` branch (lines 103-105): `1` when the response
contains `"function"` and `"fibonacci"` or `"fib"`, else the initial
`0`. -/
def codeScore (c : String) : ℚ :=
  if strIn "function" c && (strIn "fibonacci" c || strIn "fib" c) then 1 else 0

/-- The condition of the exact-match and substring rules: the rule's key
is present in the test dict and the expected string occurs
case-insensitively in the response. -/
def expectedHit (e? : Option String) (c : String) : Bool :=
  match e? with
  | some e => strInCI e c
  | none => false

/-- The scoring block of `compare-models.py` lines 89-107.  Every rule's
condition conjoins the truthiness of `content`, so an absent (`None`) or
empty response falls through every `elif` into the `else: score = 0.5`
fallback. -/
def score (t : TestCase) (content : Option String) : ℚ :=
  match content with
  | none => 1/2
  | some c =>
    if c = "" then 1/2
    else if expectedHit t.expected c then 1
    else if expectedHit t.expected_contains c then 1
    else if t.check_json then jsonScore c
    else if t.check_code then codeScore c
    else 1/2

/-- The scoring block with its possible exceptions made explicit: the
only raise sites are `json.loads` and the membership tests on the parsed
value, and both sit inside the `try ... except:` that converts any error
into score `0`.  An uncaught exception would surface as
`Except.error`. -/
def scoreE (t : TestCase) (content : Option String) : Except PyErr ℚ :=
  match content with
  | none => Except.ok (1/2)
  | some c =>
    if c = "" then Except.ok (1/2)
    else if expectedHit t.expected c then Except.ok 1
    else if expectedHit t.expected_contains c then Except.ok 1
    else if t.check_json then
      Except.ok (match jsonTry c with
                 | Except.ok q => q
                 | Except.error _ => 0)
    else if t.check_code then Except.ok (codeScore c)
    else Except.ok (1/2)

/-- What one completion call returns when no exception is raised: the
primary content (possibly `None`) and the reasoning field when the
message has one with a non-null value. -/
structure CallResult where
  content : Option String
  reasoning : Option String
deriving DecidableEq, Repr

/-- The per-test loop of `compare-models.py` lines 60-121 for one model.
`call` is the environment: for each test it either yields a completion
or raises with a message (any exception inside the `try`, API failure
included).  Each test contributes exactly one entry: on success the
score of the resolved content paired with no error log, on failure the
recorded score `0` paired with the logged error message. -/
def runModelScores (tests : List TestCase)
    (call : TestCase → Except String CallResult) : List (ℚ × Option String) :=
  tests.map (fun t =>
    match call t with
    | Except.error msg => (0, some msg)
    | Except.ok r => (score t (resolveContent r.content r.reasoning), none))

/-- The outer loop over models (line 51): every model is processed, each
with the full test list. -/
def runAllModels (models : List String) (tests : List TestCase)
    (call : String → TestCase → Except String CallResult) :
    List (String × List (ℚ × Option String)) :=
  models.map (fun m => (m, runModelScores tests (call m)))

/-- The per-model aggregate of lines 124-130. -/
structure ModelStats where
  avg_time : ℚ
  total_tokens : ℕ
  avg_score : ℚ
  total_time : ℚ
deriving DecidableEq, Repr

/-- The recommendation condition of `compare-models.py` lines 153-156:
prefer DeepSeek-V3.1 exactly when its average score is at least 90% of
R1's and its average latency is strictly lower. -/
def v3_better (v3_stats r1_stats : ModelStats) : Bool :=
  decide (v3_stats.avg_score ≥ r1_stats.avg_score * (9/10)) &&
  decide (v3_stats.avg_time < r1_stats.avg_time)

/-- The loop body of `test_embedding.py` lines 7-9: for each indexed
character, when the index is below 10, write `ord(char) % 100 / 100.0`
at that index. -/
def embLoop : ℕ → List Char → List ℚ → List ℚ
  | _, [], emb => emb
  | i, c :: cs, emb =>
    embLoop (i + 1) cs
      (if i < 10 then emb.set i ((c.toNat % 100 : ℕ) / 100 : ℚ) else emb)

/-- `create_embedding` of `test_embedding.py` lines 3-10: a 10-slot zero
vector overwritten at the indices of the first 10 characters. -/
def create_embedding (text : String) : List ℚ :=
  embLoop 0 text.toList (List.replicate 10 0)

/-- The JSON-shape property exactly as the specification words it: the
response "parses as structured data containing both a \"type\" field and
a \"tasks\" field", i.e. parses to a JSON object among whose keys are
"type" and "tasks".  Stated for comparison with the code, which instead
applies Python's `in` to whatever value the text parses to. -/
def specJsonShape (s : String) : Prop :=
  ∃ kvs, json_loads s = some (JVal.jobj kvs) ∧
    kvs.any (fun kv => kv.1 == "type") = true ∧
    kvs.any (fun kv => kv.1 == "tasks") = true

/-! ## Helper lemmas -/

theorem pySplitF_ne_nil (sep : List Char) (fuel : Nat) (s : List Char) :
    pySplitF sep fuel s ≠ [] := by
  match fuel, s with
  | _, [] => simp [pySplitF]
  | 0, c :: rest => simp [pySplitF]
  | fuel + 1, c :: rest =>
    rw [pySplitF]
    split
    · simp
    · split <;> simp

theorem hasInfix_pySplitF (sep : List Char) (hsep : sep ≠ []) :
    ∀ (fuel : Nat) (s : List Char), s.length ≤ fuel →
      hasInfix sep s = true → 2 ≤ (pySplitF sep fuel s).length := by
  intro fuel
  induction fuel with
  | zero =>
    intro s hlen hinf
    have hs : s = [] := List.length_eq_zero.mp (Nat.le_zero.mp hlen)
    subst hs
    simp [hasInfix, List.isEmpty_iff, hsep] at hinf
  | succ fuel ih =>
    intro s hlen hinf
    match s with
    | [] => simp [hasInfix, List.isEmpty_iff, hsep] at hinf
    | c :: rest =>
      rw [pySplitF]
      split
      · have := pySplitF_ne_nil sep fuel ((c :: rest).drop sep.length)
        simp only [List.length_cons]
        cases h : pySplitF sep fuel ((c :: rest).drop sep.length) with
        | nil => exact absurd h this
        | cons a b => simp
      · rename_i hcond
        have hpre : sep.isPrefixOf (c :: rest) = false := by
          cases hp : sep.isPrefixOf (c :: rest)
          · rfl
          · exfalso
            apply hcond
            simp [hp, List.isEmpty_iff, hsep]
        have hrest : hasInfix sep rest = true := by
          rw [hasInfix, hpre] at hinf
          simpa using hinf
        have h2 : 2 ≤ (pySplitF sep fuel rest).length := by
          apply ih rest _ hrest
          simpa [Nat.lt_succ_iff] using hlen
        cases h : pySplitF sep fuel rest with
        | nil => exact absurd h (pySplitF_ne_nil sep fuel rest)
        | cons a b =>
          rw [h] at h2
          simpa using h2

/-- `hasInfix` implies the Python split has at least two fields. -/
theorem hasInfix_pySplit (sep : List Char) (hsep : sep ≠ []) (s : List Char)
    (h : hasInfix sep s = true) :
    ∃ pre mid rest, pySplit sep s = pre :: mid :: rest := by
  have h2 := hasInfix_pySplitF sep hsep s.length s le_rfl h
  unfold pySplit
  match hsplit : pySplitF sep s.length s with
  | [] => exact absurd hsplit (pySplitF_ne_nil sep s.length s)
  | [a] => rw [hsplit] at h2; simp at h2
  | a :: b :: t => exact ⟨a, b, t, rfl⟩

/-- The `try` body can only produce the scores `0` and `1`. -/
theorem jsonTry_ok_range (c : String) (q : ℚ) (h : jsonTry c = Except.ok q) :
    q = 0 ∨ q = 1 := by
  cases hl : json_loads c with
  | none => simp [jsonTry, hl] at h
  | some v =>
    simp only [jsonTry, hl] at h
    cases h1 : pyInJ "type" v with
    | error e => simp [h1] at h
    | ok b1 =>
      simp only [h1] at h
      cases b1 with
      | false => simp at h; exact Or.inl h.symm
      | true =>
        simp only [if_true] at h
        cases h2 : pyInJ "tasks" v with
        | error e => simp [h2] at h
        | ok b2 =>
          simp only [h2, Except.ok.injEq] at h
          cases b2 with
          | false => simp at h; exact Or.inl h.symm
          | true => simp at h; exact Or.inr h.symm

/-- The caught `check_json` branch scores `0` or `1`. -/
theorem jsonScore_range (c : String) : jsonScore c = 0 ∨ jsonScore c = 1 := by
  unfold jsonScore
  cases h : jsonTry c with
  | error e => exact Or.inl rfl
  | ok q => exact jsonTry_ok_range c q h

/-- The `check_code` branch scores `0` or `1`. -/
theorem codeScore_range (c : String) : codeScore c = 0 ∨ codeScore c = 1 := by
  unfold codeScore
  split
  · exact Or.inr rfl
  · exact Or.inl rfl

/-- Every score the scoring block can produce is `0`, `0.5` or `1`. -/
theorem score_range (t : TestCase) (c : Option String) :
    score t c = 0 ∨ score t c = 1/2 ∨ score t c = 1 := by
  cases c with
  | none => exact Or.inr (Or.inl rfl)
  | some s =>
    simp only [score]
    split_ifs with h1 h2 h3 h4 h5
    · exact Or.inr (Or.inl rfl)
    · exact Or.inr (Or.inr rfl)
    · exact Or.inr (Or.inr rfl)
    · rcases jsonScore_range s with h | h
      · exact Or.inl h
      · exact Or.inr (Or.inr h)
    · rcases codeScore_range s with h | h
      · exact Or.inl h
      · exact Or.inr (Or.inr h)
    · exact Or.inr (Or.inl rfl)

/-- The embedding loop preserves the vector's length. -/
theorem embLoop_length (l : List Char) :
    ∀ (i : ℕ) (emb : List ℚ), (embLoop i l emb).length = emb.length := by
  induction l with
  | nil => intro i emb; rfl
  | cons c cs ih =>
    intro i emb
    rw [embLoop, ih]
    split <;> simp

/-- The embedding loop writes only values of the form `ord % 100 / 100`,
so a bound satisfied by the initial vector and by every such value is
preserved. -/
theorem embLoop_bounds (l : List Char) :
    ∀ (i : ℕ) (emb : List ℚ),
      (∀ q ∈ emb, 0 ≤ q ∧ q ≤ 99/100) →
      ∀ q ∈ embLoop i l emb, 0 ≤ q ∧ q ≤ 99/100 := by
  induction l with
  | nil => intro i emb h; exact h
  | cons c cs ih =>
    intro i emb h
    rw [embLoop]
    apply ih
    split
    · intro q hq
      rcases List.mem_or_eq_of_mem_set hq with hmem | rfl
      · exact h q hmem
      · constructor
        · positivity
        · rw [div_le_div_iff_of_pos_right (by norm_num : (0:ℚ) < 100)]
          have : c.toNat % 100 < 100 := Nat.mod_lt _ (by norm_num)
          exact_mod_cast Nat.lt_succ_iff.mp this
    · exact h

/-- Once the index reaches 10, the loop never writes again. -/
theorem embLoop_stop (l : List Char) :
    ∀ (i : ℕ) (emb : List ℚ), 10 ≤ i → embLoop i l emb = emb := by
  induction l with
  | nil => intro i emb _; rfl
  | cons c cs ih =>
    intro i emb hi
    rw [embLoop]
    have : ¬ i < 10 := by omega
    rw [if_neg this]
    exact ih (i + 1) emb (by omega)

/-- Characters beyond index 10 are ignored by the loop. -/
theorem embLoop_take (l : List Char) :
    ∀ (i : ℕ) (emb : List ℚ),
      embLoop i l emb = embLoop i (l.take (10 - i)) emb := by
  induction l with
  | nil => intro i emb; simp
  | cons c cs ih =>
    intro i emb
    by_cases hi : i < 10
    · have h10 : 10 - i = (10 - (i + 1)) + 1 := by omega
      rw [h10, List.take_succ_cons, embLoop, embLoop]
      exact ih (i + 1) _
    · have h10 : 10 - i = 0 := by omega
      rw [h10, List.take_zero]
      exact embLoop_stop (c :: cs) i emb (by omega)

/-! ## Claim theorems -/

/-- C2: the decision prefers the faster model (V3.1) over the
higher-quality one (R1) if and only if its average score is at least 90%
of the other's average score and its average latency is strictly lower;
in particular, model A with score 0.8 and latency 2.0s loses to model B
with score 0.9 and latency 3.0s, because 0.8 < 0.81. -/
theorem C2_preference_rule :
    (∀ v3_stats r1_stats : ModelStats,
      v3_better v3_stats r1_stats = true ↔
        (v3_stats.avg_score ≥ r1_stats.avg_score * (9/10) ∧
         v3_stats.avg_time < r1_stats.avg_time))
    ∧ v3_better ⟨2, 0, 8/10, 0⟩ ⟨3, 0, 9/10, 0⟩ = false := by
  constructor
  · intro v3 r1
    simp [v3_better]
  · have h : ¬ ((8:ℚ)/10 ≥ (9:ℚ)/10 * (9/10)) := by norm_num
    simp [v3_better, h]

/-- C5: for a test configured with only the code-pattern check, a
response scores 1 exactly when it contains `"function"` together with
`"fibonacci"` or `"fib"`; `"function fib(n) {...}"` scores 1 and
`"const fib = n => ..."` scores 0. -/
theorem C5_code_pattern_rule :
    (∀ (nm pr c : String),
      score ⟨nm, pr, none, none, false, true⟩ (some c) = 1 ↔
        (strIn "function" c = true ∧
          (strIn "fibonacci" c = true ∨ strIn "fib" c = true)))
    ∧ score ⟨"Code Generation", "", none, none, false, true⟩
        (some "function fib(n) \x7b...\x7d") = 1
    ∧ score ⟨"Code Generation", "", none, none, false, true⟩
        (some "const fib = n => ...") = 0 := by
  refine ⟨?_, ?_, ?_⟩
  · intro nm pr c
    by_cases hc : c = ""
    · subst hc
      have hs : score ⟨nm, pr, none, none, false, true⟩ (some "") = 1/2 := rfl
      have hfn : strIn "function" "" = false := by decide
      rw [hs]
      simp only [hfn, Bool.false_eq_true, false_and]
      norm_num
    · have hs : score ⟨nm, pr, none, none, false, true⟩ (some c) = codeScore c := by
        simp [score, expectedHit, hc]
      rw [hs]
      simp only [codeScore]
      split_ifs with h
      · simp only [Bool.and_eq_true, Bool.or_eq_true] at h
        simp [h]
      · simp only [Bool.and_eq_true, Bool.or_eq_true] at h
        constructor
        · intro h01
          norm_num at h01
        · intro hr
          exact absurd hr h
  · rfl
  · rfl

/-- C8: the scoring block never raises: with the possible exceptions made
explicit, every test case and every response text (absent, empty,
non-JSON, or JSON parsing to a non-object) yields a score; the inner
`try` genuinely errors on malformed JSON (`ValueError`) and non-container
values (`TypeError`), and the bare `except:` degrades those to 0, while
an absent response degrades to 0.5. -/
theorem C8_scorer_never_raises :
    (∀ (t : TestCase) (c : Option String), scoreE t c = Except.ok (score t c))
    ∧ jsonTry "not json" = Except.error PyErr.valueError
    ∧ jsonTry "42" = Except.error PyErr.typeError
    ∧ score ⟨"Task Decomposition", "", none, none, true, false⟩
        (some "not json") = 0
    ∧ score ⟨"Task Decomposition", "", none, none, true, false⟩ none = 1/2 := by
  refine ⟨?_, rfl, rfl, rfl, rfl⟩
  intro t c
  cases c with
  | none => rfl
  | some s =>
    simp only [score, scoreE, jsonScore]
    split_ifs <;> rfl

/-- C9: every score the scoring block produces, and every score the
per-test loop records (the API-failure score included), lies in
{0, 0.5, 1}; determinism holds because `score` is a function of the
test case and the resolved completion content alone. -/
theorem C9_scores_three_levels :
    (∀ (t : TestCase) (c : Option String),
      score t c = 0 ∨ score t c = 1/2 ∨ score t c = 1)
    ∧ (∀ (tests : List TestCase) (call : TestCase → Except String CallResult)
        (p : ℚ × Option String), p ∈ runModelScores tests call →
          p.1 = 0 ∨ p.1 = 1/2 ∨ p.1 = 1) := by
  constructor
  · exact score_range
  · intro tests call p hp
    simp only [runModelScores, List.mem_map] at hp
    obtain ⟨t, ht, heq⟩ := hp
    cases hcall : call t with
    | error msg =>
      rw [hcall] at heq
      rw [← heq]
      exact Or.inl rfl
    | ok r =>
      rw [hcall] at heq
      rw [← heq]
      exact score_range t _

/-- C9 witness: a concrete score and a concrete recorded failure entry
are among the three levels. -/
theorem C9_witness :
    (score ⟨"Simple Math", "", some "42", none, false, false⟩ none = 0 ∨
     score ⟨"Simple Math", "", some "42", none, false, false⟩ none = 1/2 ∨
     score ⟨"Simple Math", "", some "42", none, false, false⟩ none = 1)
    ∧ (((0:ℚ), (some "boom" : Option String)).1 = 0 ∨
       ((0:ℚ), (some "boom" : Option String)).1 = 1/2 ∨
       ((0:ℚ), (some "boom" : Option String)).1 = 1) :=
  ⟨C9_scores_three_levels.1 _ none,
   C9_scores_three_levels.2 test_cases (fun _ => Except.error "boom")
     (0, some "boom") (by simp [runModelScores, test_cases])⟩

/-- C6: for every test case of the script with an exact-match rule, a
response containing the expected string case-insensitively scores 1, and
a response lacking it scores 0 or 0.5. -/
theorem C6_exact_match_rule :
    ∀ t ∈ test_cases, ∀ e : String, t.expected = some e →
      ∀ c : String,
        (strInCI e c = true → score t (some c) = 1) ∧
        (strInCI e c = false →
          score t (some c) = 0 ∨ score t (some c) = 1/2) := by
  intro t ht e he c
  fin_cases ht
  · have he42 : e = "42" := by
      simpa using he.symm
    subst he42
    constructor
    · intro hci
      by_cases hc : c = ""
      · subst hc
        exact absurd hci (by decide)
      · simp [score, expectedHit, hc, hci]
    · intro hci
      by_cases hc : c = ""
      · subst hc
        right
        rfl
      · right
        simp [score, expectedHit, hc, hci]
  · simp at he
  · simp at he
  · simp at he

/-- C6 witness: the Simple Math test case scores 1 on a response
containing "42". -/
theorem C6_witness :
    score ⟨"Simple Math", "What is 15 + 27? Reply with just the number.",
        some "42", none, false, false⟩ (some "The answer is 42") = 1 :=
  (C6_exact_match_rule _ (by simp [test_cases]) "42" rfl
    "The answer is 42").1 (by decide)

/-- C7: a failure raised by a model call is caught per test case: the
loop records the score 0 together with the logged error message for that
test, every test case still produces exactly one entry, and the outer
loop still processes every model. -/
theorem C7_failure_isolation :
    ∀ (tests : List TestCase) (call : TestCase → Except String CallResult),
      (runModelScores tests call).length = tests.length
      ∧ (∀ (i : ℕ) (h : i < tests.length) (msg : String),
          call (tests.get ⟨i, h⟩) = Except.error msg →
          (runModelScores tests call).get
            ⟨i, by simpa [runModelScores] using h⟩ = (0, some msg))
      ∧ (∀ (models : List String)
          (callOf : String → TestCase → Except String CallResult),
          (runAllModels models tests callOf).length = models.length
          ∧ ∀ m ∈ models, (m, runModelScores tests (callOf m)) ∈
              runAllModels models tests callOf) := by
  intro tests call
  refine ⟨by simp [runModelScores], ?_, ?_⟩
  · intro i h msg hcall
    simp only [runModelScores, List.get_eq_getElem, List.getElem_map]
    simp only [List.get_eq_getElem] at hcall
    rw [hcall]
  · intro models callOf
    refine ⟨by simp [runAllModels], ?_⟩
    intro m hm
    simp only [runAllModels, List.mem_map]
    exact ⟨m, hm, rfl⟩

/-- C7 witness: with every call failing, the first test case records the
score 0 and the error message, and both models are still processed. -/
theorem C7_witness :
    (runModelScores test_cases
        (fun _ => Except.error "APIError: boom")).get ⟨0, by decide⟩ =
      (0, some "APIError: boom")
    ∧ (runAllModels ["DeepSeek-R1-0528", "DeepSeek-V3.1"] test_cases
        (fun _ _ => Except.error "APIError: boom")).length = 2 :=
  ⟨(C7_failure_isolation test_cases
      (fun _ => Except.error "APIError: boom")).2.1 0 (by decide)
      "APIError: boom" rfl,
   ((C7_failure_isolation test_cases
      (fun _ => Except.error "APIError: boom")).2.2
      ["DeepSeek-R1-0528", "DeepSeek-V3.1"]
      (fun _ _ => Except.error "APIError: boom")).1⟩

/-- C10: `create_embedding` always returns exactly 10 components, each
in the interval [0, 0.99], and its output depends only on the first 10
characters of the input text. -/
theorem C10_create_embedding_spec :
    ∀ text : String,
      (create_embedding text).length = 10
      ∧ (∀ (i : ℕ) (h : i < (create_embedding text).length),
          0 ≤ (create_embedding text).get ⟨i, h⟩ ∧
            (create_embedding text).get ⟨i, h⟩ ≤ 99/100)
      ∧ create_embedding text =
          create_embedding (String.mk (text.toList.take 10)) := by
  intro text
  refine ⟨?_, ?_, ?_⟩
  · rw [create_embedding, embLoop_length]
    rfl
  · intro i h
    have hrepl : ∀ q ∈ List.replicate 10 (0:ℚ), 0 ≤ q ∧ q ≤ 99/100 := by
      intro q hq
      have hq0 : q = 0 := List.eq_of_mem_replicate hq
      subst hq0
      norm_num
    exact embLoop_bounds text.toList 0 (List.replicate 10 0) hrepl _
      (List.get_mem (create_embedding text) i h)
  · rw [create_embedding, create_embedding]
    have hmk : (String.mk (text.toList.take 10)).toList = text.toList.take 10 :=
      rfl
    rw [hmk]
    exact embLoop_take text.toList 0 _

/-- C10 witness: the properties at the 11-character input
"hello world", which exercises the truncation. -/
theorem C10_witness :
    (create_embedding "hello world").length = 10
    ∧ (0 ≤ (create_embedding "hello world").get ⟨0, by decide⟩ ∧
        (create_embedding "hello world").get ⟨0, by decide⟩ ≤ 99/100)
    ∧ create_embedding "hello world" =
        create_embedding (String.mk ("hello world".toList.take 10)) :=
  ⟨(C10_create_embedding_spec "hello world").1,
   (C10_create_embedding_spec "hello world").2.1 0 (by decide),
   (C10_create_embedding_spec "hello world").2.2⟩

/-- When the caught `check_json` branch scores 1, the `try` body really
produced 1. -/
theorem jsonScore_eq_one (s : String) (h : jsonScore s = 1) :
    jsonTry s = Except.ok 1 := by
  unfold jsonScore at h
  cases ht : jsonTry s with
  | error e =>
    rw [ht] at h
    norm_num at h
  | ok q =>
    rw [ht] at h
    simp at h
    rw [h]

/-- The `try` body scores 1 exactly when the parse succeeds and both
membership tests succeed on the parsed value. -/
theorem jsonTry_eq_one_iff (c : String) :
    jsonTry c = Except.ok 1 ↔
      ∃ v, json_loads c = some v ∧ pyInJ "type" v = Except.ok true ∧
        pyInJ "tasks" v = Except.ok true := by
  constructor
  · intro h
    cases hl : json_loads c with
    | none => simp [jsonTry, hl] at h
    | some v =>
      simp only [jsonTry, hl] at h
      cases h1 : pyInJ "type" v with
      | error e => simp [h1] at h
      | ok b1 =>
        simp only [h1] at h
        cases b1 with
        | false =>
          simp only [Bool.false_eq_true, if_false, Except.ok.injEq] at h
          exact absurd h (by norm_num)
        | true =>
          simp only [if_true] at h
          cases h2 : pyInJ "tasks" v with
          | error e => simp [h2] at h
          | ok b2 =>
            simp only [h2, Except.ok.injEq] at h
            cases b2 with
            | false => exact absurd h (by norm_num)
            | true => exact ⟨v, rfl, h1, h2⟩
  · rintro ⟨v, hl, h1, h2⟩
    simp [jsonTry, hl, h1, h2]

/-- C1 counterexample: with the Task Decomposition test (JSON-shape rule
configured, hence unsatisfied by an absent response), an absent response
scores 0.5, not the claimed 0; and with the Code Generation test
(code-pattern rule configured), a present response satisfying no rule
scores 0, not the claimed 0.5. -/
theorem C1_counterexample :
    score ⟨"Task Decomposition", "", none, none, true, false⟩ none = 1/2
    ∧ ((1:ℚ)/2 ≠ 0)
    ∧ score ⟨"Code Generation", "", none, none, false, true⟩
        (some "hello") = 0
    ∧ ((0:ℚ) ≠ 1/2) := by
  exact ⟨rfl, by norm_num, rfl, by norm_num⟩

/-- C1 amended: the 0.5 fallback fires exactly when no rule branch is
entered.  When every configured rule is unsatisfied: a present response
scores 0.5 if only exact/substring rules are configured but 0 if a
JSON-shape or code-pattern rule is configured (their branch is entered
and leaves the score at 0), and an absent or empty response always falls
through to the 0.5 fallback, whatever rules are configured. -/
theorem C1_fallback_amended :
    ∀ (t : TestCase) (c : Option String),
      (∀ s, c = some s → s ≠ "" →
        (∀ e, t.expected = some e → strInCI e s = false) →
        (∀ e, t.expected_contains = some e → strInCI e s = false) →
        (t.check_json = true → jsonTry s ≠ Except.ok 1) →
        (t.check_code = true →
          (strIn "function" s &&
            (strIn "fibonacci" s || strIn "fib" s)) = false) →
        score t c = if t.check_json || t.check_code then 0 else 1/2)
      ∧ ((c = none ∨ c = some "") → score t c = 1/2) := by
  intro t c
  constructor
  · rintro s rfl hs hexp hcont hjson hcode
    obtain ⟨nm, pr, exp, expc, cj, cc⟩ := t
    simp only [score]
    rw [if_neg hs]
    have hexp' : expectedHit exp s = false := by
      cases exp with
      | none => rfl
      | some e => exact hexp e rfl
    have hcont' : expectedHit expc s = false := by
      cases expc with
      | none => rfl
      | some e => exact hcont e rfl
    rw [hexp', hcont']
    simp only [Bool.false_eq_true, if_false]
    cases cj with
    | true =>
      simp only [Bool.true_or, if_true]
      rcases jsonScore_range s with h0 | h1
      · exact h0
      · exact absurd (jsonScore_eq_one s h1) (hjson rfl)
    | false =>
      cases cc with
      | true =>
        simp only [Bool.false_or, if_true]
        unfold codeScore
        rw [hcode rfl]
        simp
      | false => simp
  · rintro (rfl | rfl)
    · rfl
    · rfl

/-- C1 amended witness: a JSON-rule test with an unsatisfying present
response scores 0, and a test with an absent response scores 0.5. -/
theorem C1_amended_witness :
    score ⟨"Task Decomposition", "", none, none, true, false⟩
        (some "not json") = 0
    ∧ score ⟨"Simple Math", "", some "42", none, false, false⟩ none = 1/2 :=
  ⟨(C1_fallback_amended ⟨"Task Decomposition", "", none, none, true, false⟩
      (some "not json")).1 "not json" rfl (by decide)
      (fun e h => nomatch h) (fun e h => nomatch h)
      (fun _ h => by
        rw [show jsonTry "not json" = Except.error PyErr.valueError
          from rfl] at h
        exact Except.noConfusion h)
      (fun h => nomatch h),
   (C1_fallback_amended ⟨"Simple Math", "", some "42", none, false, false⟩
      none).2 (Or.inl rfl)⟩

/-- C3 counterexample: for reasoning text whose fenced block carries the
language tag `python`, the extracted content keeps the tag — the code
only strips a leading `json` tag, so the generic "leading language tag
stripped" reading fails. -/
theorem C3_counterexample :
    extractFromReasoning "```python\nx = 1\n```" = some "python\nx = 1"
    ∧ extractFromReasoning "```python\nx = 1\n```" ≠ some "x = 1" := by
  constructor
  · rfl
  · intro h
    rw [show extractFromReasoning "```python\nx = 1\n```" =
        some "python\nx = 1" from rfl] at h
    simp only [Option.some.injEq] at h
    exact absurd h (by decide)

/-- C3 amended: with no fence the raw reasoning text is used; with a
fence the extracted content is the second field of the fence-split of
the reasoning, whitespace-trimmed, with a leading `json` tag (and only a
`json` tag) stripped.  The two concrete conjuncts show a `json`-tagged
block being stripped and a fence-free text passing through. -/
theorem C3_extraction_amended :
    (∀ r : String,
      (hasInfix fence r.toList = false → extractFromReasoning r = some r)
      ∧ (hasInfix fence r.toList = true →
          ∃ pre mid rest, pySplit fence r.toList = pre :: mid :: rest ∧
            extractFromReasoning r =
              some (String.mk (stripJsonTag (pyStrip mid)))))
    ∧ extractFromReasoning "before ```json\n\x7b\"a\":1\x7d\n``` after" =
        some "\x7b\"a\":1\x7d"
    ∧ extractFromReasoning "no fences here" = some "no fences here" := by
  refine ⟨?_, rfl, rfl⟩
  intro r
  constructor
  · intro h
    unfold extractFromReasoning
    rw [h]
    rfl
  · intro h
    obtain ⟨pre, mid, rest, hsplit⟩ :=
      hasInfix_pySplit fence (by decide) r.toList h
    refine ⟨pre, mid, rest, hsplit, ?_⟩
    unfold extractFromReasoning
    rw [h, hsplit]
    rfl

/-- C3 amended witness: the amended characterization applied to a
concrete reasoning text with a fence and to one without. -/
theorem C3_amended_witness :
    (∃ pre mid rest,
      pySplit fence ("x ```json\ny\n``` z").toList = pre :: mid :: rest ∧
      extractFromReasoning "x ```json\ny\n``` z" =
        some (String.mk (stripJsonTag (pyStrip mid))))
    ∧ extractFromReasoning "plain text" = some "plain text" :=
  ⟨(C3_extraction_amended.1 "x ```json\ny\n``` z").2 (by decide),
   (C3_extraction_amended.1 "plain text").1 (by decide)⟩

/-- C4 counterexample: the response `["type","tasks"]` parses to a JSON
array, which has no fields at all, yet Python's `in` finds both strings
among its elements and the code scores 1; and the empty response falls
through to the 0.5 fallback where the claim demands 0. -/
theorem C4_counterexample :
    score ⟨"Task Decomposition", "", none, none, true, false⟩
        (some "[\"type\",\"tasks\"]") = 1
    ∧ ¬ specJsonShape "[\"type\",\"tasks\"]"
    ∧ score ⟨"Task Decomposition", "", none, none, true, false⟩
        (some "") = 1/2 := by
  refine ⟨rfl, ?_, rfl⟩
  rintro ⟨kvs, hparse, -, -⟩
  rw [show json_loads "[\"type\",\"tasks\"]" =
      some (JVal.jarr [JVal.jstr "type", JVal.jstr "tasks"]) from rfl] at hparse
  simp at hparse

/-- C4 amended: for the JSON-shape test, a present response scores 1
exactly when it is non-empty, parses, and Python's membership test for
`"type"` and `"tasks"` succeeds on the parsed value (key membership for
an object, element membership for an array, substring for a string;
numbers, booleans and null raise `TypeError`, caught to 0); `"not json"`
scores 0, `{"tasks":[]}` scores 0, and a well-shaped object scores 1. -/
theorem C4_json_shape_amended :
    (∀ c : String,
      score ⟨"Task Decomposition", "", none, none, true, false⟩ (some c) = 1 ↔
        (c ≠ "" ∧ ∃ v, json_loads c = some v ∧
          pyInJ "type" v = Except.ok true ∧
          pyInJ "tasks" v = Except.ok true))
    ∧ score ⟨"Task Decomposition", "", none, none, true, false⟩
        (some "not json") = 0
    ∧ score ⟨"Task Decomposition", "", none, none, true, false⟩
        (some "\x7b\"tasks\":[]\x7d") = 0
    ∧ score ⟨"Task Decomposition", "", none, none, true, false⟩
        (some "\x7b\"type\":\"tasks\",\"tasks\":[]\x7d") = 1 := by
  refine ⟨?_, rfl, rfl, rfl⟩
  intro c
  by_cases hc : c = ""
  · subst hc
    constructor
    · intro h
      rw [show score ⟨"Task Decomposition", "", none, none, true, false⟩
          (some "") = 1/2 from rfl] at h
      norm_num at h
    · rintro ⟨hne, -⟩
      exact absurd rfl hne
  · have hs : score ⟨"Task Decomposition", "", none, none, true, false⟩
        (some c) = jsonScore c := by
      simp [score, expectedHit, hc]
    rw [hs]
    constructor
    · intro h1
      exact ⟨hc, (jsonTry_eq_one_iff c).mp (jsonScore_eq_one c h1)⟩
    · rintro ⟨-, hv⟩
      have := (jsonTry_eq_one_iff c).mpr hv
      simp [jsonScore, this]

/-- C4 amended witness: the characterization instantiated at the
well-shaped object response. -/
theorem C4_amended_witness :
    score ⟨"Task Decomposition", "", none, none, true, false⟩
        (some "\x7b\"type\":1,\"tasks\":2\x7d") = 1 :=
  (C4_json_shape_amended.1 "\x7b\"type\":1,\"tasks\":2\x7d").mpr
    ⟨by decide,
     JVal.jobj [("type", JVal.jnum 1), ("tasks", JVal.jnum 2)], rfl, rfl, rfl⟩
